import Mathlib

/-!
# Verification of the alphamon-rs message codec and framed query engines

A shallow embedding of the CPlus UPS protocol client (`src/error.rs`,
`src/model/cplus.rs`, `src/device/cplus.rs`).  Byte slices (`&[u8]`) are
modelled as `List Nat` whose elements stand for bytes; where a multi-byte
big-endian value is assembled, each byte is reduced `% 256` exactly as the
`u8` type bounds it in the source.  Rust `f32` arithmetic on decoded fields
is modelled in exact rational arithmetic (`ℚ`): every scale factor in the
source (`0.1`, `0.01`) and every decoded 16-bit integer is exactly
representable, so the rational model agrees with the source on the
discriminating values checked below.  Fallible Rust functions returning
`Result` are modelled with `Except Error`; functions that can panic
(`unimplemented!`, the out-of-bounds assertion inside `slice::split_at`)
are modelled with the three-valued `Outcome`, whose `panic` constructor
records the panic message.
-/

namespace Alphamon

/-- The error enum of `src/error.rs` (equivalently `Error` in `src/lib.rs`).
Payloads irrelevant to the claims (the wrapped `std` error values) are
dropped; the constructor set is the source's. -/
inductive Error where
  | InvalidFormat
  | InvalidBatteryCapacityParameter
  | FloatParse
  | IntParse
  | InvalidParameterLength
  | BufferTooSmall (expected provided : Nat)
  | Io
  | SerialPort
  | HidApi
deriving DecidableEq, Repr

/-- Outcome of running a Rust function that may return `Ok`, return `Err`,
or panic (diverge without returning to the caller). -/
inductive Outcome (α : Type) where
  | ok (a : α)
  | err (e : Error)
  | panic (msg : String)
deriving DecidableEq, Repr

/-- `u16::from_be_bytes([a, b])` on two bytes. -/
def be16 (a b : Nat) : Nat := a % 256 * 256 + b % 256

/-- `u32::from_be_bytes([a, b, c, d])` on four bytes. -/
def be32 (a b c d : Nat) : Nat :=
  a % 256 * 16777216 + b % 256 * 65536 + c % 256 * 256 + d % 256

/-- `END_BYTE` of `src/device/cplus.rs`: the carriage-return frame
delimiter `b'\r'`. -/
def END_BYTE : Nat := 13

/-- `AlarmInquiryResponse` of `src/model/cplus.rs`. -/
structure AlarmInquiryResponse where
  inverter_on : Bool
  ups_alarm_on : Bool
deriving DecidableEq, Repr

/-- `AlarmInquiryResponse::from_bytes` (`src/model/cplus.rs:235-250`):
`s.get(0..2)` yields the first two bytes when `s.len() >= 2` and `None`
(hence `InvalidFormat`) otherwise; each kept byte decodes as
`byte == b'1'` (49).  The subsequent two-element slice pattern in the
source always matches the two collected booleans. -/
def AlarmInquiryResponse.from_bytes : List Nat → Except Error AlarmInquiryResponse
  | a :: b :: _ => Except.ok { inverter_on := a = 49, ups_alarm_on := b = 49 }
  | _ => Except.error Error.InvalidFormat

/-- `AutonomyResponse` of `src/model/cplus.rs`; `time` is the
`tokio::time::Duration` held, in whole seconds (the source constructs it
with `Duration::from_secs`, so the sub-second part is always zero). -/
structure AutonomyResponse where
  time : Nat
deriving DecidableEq, Repr

/-- `AutonomyResponse::from_bytes` (`src/model/cplus.rs:308-316`):
`s.try_into()` into `[u8; 4]` fails unless the input is exactly 4 bytes
(the `TryFromSliceError` converts to `Error::InvalidParameterLength`),
then `u32::from_be_bytes` is taken as seconds. -/
def AutonomyResponse.from_bytes : List Nat → Except Error AutonomyResponse
  | [a, b, c, d] => Except.ok { time := be32 a b c d }
  | _ => Except.error Error.InvalidParameterLength

/-- `BatteryLifeResponse` of `src/model/cplus.rs`; `time` in whole
seconds, as for `AutonomyResponse`. -/
structure BatteryLifeResponse where
  time : Nat
deriving DecidableEq, Repr

/-- `BatteryLifeResponse::from_bytes` (`src/model/cplus.rs:327-335`): as
`AutonomyResponse::from_bytes` but the decoded value counts hours:
`u32::from_be_bytes(..) as u64 * 60 * 60` seconds (the widening to `u64`
precedes the multiplication, so no overflow occurs and plain `Nat`
multiplication is faithful). -/
def BatteryLifeResponse.from_bytes : List Nat → Except Error BatteryLifeResponse
  | [a, b, c, d] => Except.ok { time := be32 a b c d * 60 * 60 }
  | _ => Except.error Error.InvalidParameterLength

/-- `ExtraPowerInfoResponse` of `src/model/cplus.rs`.  The four scaled
fields are `f32` in the source, modelled as exact rationals; `ups_wattage`
(`u32`) and `error_code` (`u16`) round-trip through `f32` unchanged for
any 16-bit value, so they are kept as `Nat`. -/
structure ExtraPowerInfoResponse where
  ups_output_freq : ℚ
  battery_voltage : ℚ
  battery_cut_voltage : ℚ
  ups_wattage : Nat
  error_code : Nat
  load_current : ℚ
deriving DecidableEq, Repr

/-- `slice::chunks(2)`: consecutive pairs, with a final singleton chunk
when the length is odd. -/
def chunks2 : List Nat → List (List Nat)
  | [] => []
  | [a] => [[a]]
  | a :: b :: rest => [a, b] :: chunks2 rest

/-- One element of the source's `chunks(2).map(...)` pipeline:
`<&[u8] as TryInto<[u8; 2]>>::try_into` fails on a chunk that is not two
bytes long (the `TryFromSliceError` converts to
`Error::InvalidParameterLength`), then `u16::from_be_bytes` widens to the
numeric value. -/
def chunkToU16 : List Nat → Except Error Nat
  | [a, b] => Except.ok (be16 a b)
  | _ => Except.error Error.InvalidParameterLength

/-- The source's `.map(...).collect::<Result<Vec<f32>>>()`: decode every
chunk, short-circuiting at the first failure. -/
def collectU16 : List (List Nat) → Except Error (List Nat)
  | [] => Except.ok []
  | c :: rest =>
    match chunkToU16 c with
    | Except.error e => Except.error e
    | Except.ok v =>
      match collectU16 rest with
      | Except.error e => Except.error e
      | Except.ok vs => Except.ok (v :: vs)

/-- `ExtraPowerInfoResponse::from_bytes` (`src/model/cplus.rs:272-297`):
split into 2-byte chunks, decode each as a big-endian `u16` (collecting
the first failure, exactly as `collect::<Result<Vec<_>>>` does), then
pattern-match exactly ten values `[fout, _, _, vb, vbc, inv_w, ercode,
o_cur, _, _]` — any other count is `InvalidFormat` — and apply the
declared scale factors. -/
def ExtraPowerInfoResponse.from_bytes (s : List Nat) : Except Error ExtraPowerInfoResponse :=
  match collectU16 (chunks2 s) with
  | Except.error e => Except.error e
  | Except.ok [fout, _, _, vb, vbc, inv_w, ercode, o_cur, _, _] =>
    Except.ok
      { ups_output_freq := (fout : ℚ) * 0.1
        battery_voltage := (vb : ℚ) * 0.01
        battery_cut_voltage := (vbc : ℚ) * 0.01
        ups_wattage := inv_w
        error_code := ercode
        load_current := (o_cur : ℚ) * 0.1 }
  | Except.ok _ => Except.error Error.InvalidFormat

/-- `UPSInformation` of `src/model/cplus.rs`. -/
structure UPSInformation where
  manufacturer_name : String
  model : String
  version : String
deriving DecidableEq, Repr

/-- Bytes to text, one `Char` per byte.  Models
`String::from_utf8_lossy` on the ASCII data this protocol carries (on
ASCII the two agree byte for byte; the lossy replacement of ill-formed
UTF-8 sequences is not modelled, and no claim depends on it). -/
def strOfBytes (l : List Nat) : String :=
  String.mk (l.map (fun b => Char.ofNat (b % 256)))

/-- `UPSInformation::from_bytes` (`src/model/cplus.rs:348-358`): three
consecutive `split_at` calls take fixed-width fields of 15, 10 and 10
bytes.  `slice::split_at(mid)` asserts `mid <= len` and panics otherwise,
so each stage panics when fewer bytes remain than it takes; on success
each field is decoded as text and trimmed of surrounding whitespace. -/
def UPSInformation.from_bytes (s : List Nat) : Outcome UPSInformation :=
  if s.length < 15 then Outcome.panic ("mid > len")
  else if (s.drop 15).length < 10 then Outcome.panic ("mid > len")
  else if ((s.drop 15).drop 10).length < 10 then Outcome.panic ("mid > len")
  else
    Outcome.ok
      { manufacturer_name := (strOfBytes (s.take 15)).trim
        model := (strOfBytes ((s.drop 15).take 10)).trim
        version := (strOfBytes (((s.drop 15).drop 10).take 10)).trim }

/-- The offline-mode battery-capacity table: the arms of the
`true =>` match in `StatusInquiryResponse::from_bytes`
(`src/model/cplus.rs:68-105`), in source order.  The Rust `match` on
string literals with pairwise-distinct arms is exactly first-match
association-list lookup. -/
def offlineTable : List (String × Nat) :=
  [("13.5", 100), ("13.3", 90), ("13.2", 88), ("13.1", 86), ("13", 83),
   ("12.9", 80), ("12.8", 77), ("12.7", 74), ("12.6", 72), ("12.5", 69),
   ("12.4", 66), ("12.3", 63), ("12.2", 61), ("12.1", 58), ("12", 55),
   ("11.9", 52), ("11.8", 49), ("11.7", 47), ("11.6", 44), ("11.5", 41),
   ("11.4", 38), ("11.3", 36), ("11.2", 33), ("11.1", 30), ("11", 27),
   ("10.9", 24), ("10.8", 22), ("10.7", 19), ("10.6", 16), ("10.5", 13),
   ("10.4", 11), ("10.3", 8), ("10.2", 5), ("10.1", 2), ("10", 0)]

/-- The online-mode battery-capacity table: the arms of the
`false =>` match in `StatusInquiryResponse::from_bytes`
(`src/model/cplus.rs:106-164`), in source order. -/
def onlineTable : List (String × Nat) :=
  [("2.22", 100), ("2.21", 90), ("2.20", 88), ("2.19", 87), ("2.18", 85),
   ("2.17", 83), ("2.16", 82), ("2.15", 80), ("2.14", 78), ("2.13", 77),
   ("2.12", 75), ("2.11", 73), ("2.10", 72), ("2.09", 70), ("2.08", 68),
   ("2.07", 65), ("2.06", 65), ("2.05", 62), ("2.04", 62), ("2.03", 58),
   ("2.02", 58), ("2.01", 55), ("2.00", 55), ("1.99", 53), ("1.98", 52),
   ("1.97", 50), ("1.96", 48), ("1.95", 47), ("1.94", 45), ("1.93", 43),
   ("1.92", 42), ("1.91", 40), ("1.90", 38), ("1.89", 37), ("1.88", 35),
   ("1.87", 33), ("1.86", 32), ("1.85", 30), ("1.84", 28), ("1.83", 27),
   ("1.82", 25), ("1.81", 23), ("1.80", 22), ("1.79", 20), ("1.78", 18),
   ("1.77", 17), ("1.76", 15), ("1.75", 13), ("1.74", 12), ("1.73", 10),
   ("1.72", 8), ("1.71", 7), ("1.70", 5), ("1.69", 3), ("1.68", 2),
   ("1.67", 0)]

/-- The table picked by `ups_status.offline`
(`src/model/cplus.rs:67`). -/
def capacityTable (offline : Bool) : List (String × Nat) :=
  if offline then offlineTable else onlineTable

/-- The battery-capacity lookup of `StatusInquiryResponse::from_bytes`
(`src/model/cplus.rs:67-165`): exact string match against the table
selected by the `offline` flag; a literal not in that table is
`Error::InvalidBatteryCapacityParameter` (the `_ =>` arm). -/
def battery_capacity (offline : Bool) (param : String) : Except Error Nat :=
  match (capacityTable offline).lookup param with
  | some pct => Except.ok pct
  | none => Except.error Error.InvalidBatteryCapacityParameter

/-! ## Numeric value of a decimal voltage literal

Claim-level apparatus (not from the source): the numeric value denoted by a
table key such as `"13.5"`, needed to state that the tables are monotone
in the *numeric* order of their keys. -/

/-- The number denoted by a list of ASCII decimal digits. -/
def natOfDigits (l : List Char) : Nat :=
  l.foldl (fun a c => 10 * a + (c.toNat - 48)) 0

/-- Split a character list at the first dot. -/
def splitDot : List Char → (List Char × List Char)
  | [] => ([], [])
  | c :: cs =>
    if c = '.' then ([], cs)
    else
      let p := splitDot cs
      (c :: p.1, p.2)

/-- Integer mantissa of a decimal literal: `"13.5"` has mantissa 135. -/
def decMant (s : String) : Nat :=
  let p := splitDot s.data
  natOfDigits p.1 * 10 ^ p.2.length + natOfDigits p.2

/-- Number of fraction digits of a decimal literal. -/
def decFrac (s : String) : Nat := (splitDot s.data).2.length

/-- The rational value of a decimal literal: `decVal "13.5" = 27/2`. -/
def decVal (s : String) : ℚ := (decMant s : ℚ) / 10 ^ decFrac s

/-- `decVal a < decVal b`, computed on cross-multiplied integer
mantissas so that it kernel-evaluates. -/
def decValLtB (a b : String) : Bool :=
  decide (decMant a * 10 ^ decFrac b < decMant b * 10 ^ decFrac a)

/-- Adjacent-entry ordering of a capacity table: key values strictly
decreasing, percentages weakly decreasing, down the list. -/
def tableSortedB : List (String × Nat) → Bool
  | [] => true
  | [_] => true
  | a :: b :: t => (decValLtB b.1 a.1 && decide (b.2 ≤ a.2)) && tableSortedB (b :: t)

/-- Entry `b` lies strictly below entry `a`: a smaller key value and a
no-larger percentage. -/
def tblR (a b : String × Nat) : Prop := decVal b.1 < decVal a.1 ∧ b.2 ≤ a.2

/-! ## Serial framed query engine (`src/device/cplus.rs:48-171`) -/

/-- One outcome of `read_exact` on a single byte from the serial port:
either a byte was delivered, or the transport reported a timeout or other
I/O error.  A query's transport behaviour is the list of successive
outcomes; an exhausted list is read as the blocking read eventually
timing out, i.e. as `err`. -/
inductive ReadEvent where
  | byte (b : Nat)
  | err
deriving DecidableEq, Repr

/-- `CPlusSerialInterface::read_data` (`src/device/cplus.rs:78-98`):
`while self.port.read_exact(&mut byte).is_ok()` accumulates bytes until
the delimiter is read (dropped) or until a read fails — a timeout or I/O
error only exits the loop, and the function returns `Ok(buf)` with
whatever was accumulated so far.  It never returns `Err`. -/
def serialReadData : List ReadEvent → List Nat
  | [] => []
  | ReadEvent.err :: _ => []
  | ReadEvent.byte b :: rest =>
    if b = END_BYTE then [] else b :: serialReadData rest

/-- `CPlusSerialInterface::raw_query` (`src/device/cplus.rs:101-111`) as
seen through its read side: clearing the buffers and writing the command
are modelled as succeeding (the claims under study concern the read
path), so the raw frame is exactly what `read_data` accumulates. -/
def rawQuery (evs : List ReadEvent) : List Nat := serialReadData evs

/-- `CPlusSerialInterface::processed_query` (`src/device/cplus.rs:114-127`),
parametric in the decoder `T::from_bytes`: `raw_query.get(1..)` is `None`
exactly when the raw frame is empty (then `InvalidFormat` is returned
without consulting the decoder), and otherwise strips the first byte (the
echoed start marker) and hands the rest to the decoder. -/
def processedQuery {α : Type} (f : List Nat → Except Error α) (evs : List ReadEvent) :
    Except Error α :=
  match rawQuery evs with
  | [] => Except.error Error.InvalidFormat
  | _ :: rest => f rest

/-! ## HID framed query engine (`src/device/cplus.rs:173-291`) -/

/-- `buf.iter().position(|&b| b == END_BYTE)`: index of the first
carriage-return byte of a feature report, if any. -/
def crPos : List Nat → Option Nat
  | [] => none
  | b :: rest => if b = END_BYTE then some 0 else (crPos rest).map (· + 1)

/-- The acceptance test of `CPlusHidInterface::read_data`
(`src/device/cplus.rs:236-238`) on one report: the first delimiter
position `p` (if any) must be the last byte of the buffer or be followed
by a null-padding byte, and, when a message-type tag is demanded, the
buffer's first byte must equal the tag. -/
def hidAccept (tag : Option Nat) (buf : List Nat) : Bool :=
  match crPos buf with
  | none => false
  | some p =>
    (p + 1 == buf.length || buf.get? (p + 1) == some 0) &&
      (tag.isNone || buf.head? == tag)

/-- `CPlusHidInterface::read_data` (`src/device/cplus.rs:228-244`): the
polling loop over successive feature reports.  Each iteration reads one
report; a report with no delimiter, or failing the acceptance test, is
skipped and the next report is read.  The loop ends at the first accepted
report, yielding it together with its delimiter position (the source
returns the position, the report being left in the caller's buffer).  An
exhausted report list models the next `get_feature_report` failing, which
the source propagates as an error. -/
def hidReadData (tag : Option Nat) : List (List Nat) → Option (List Nat × Nat)
  | [] => none
  | buf :: rest =>
    match crPos buf with
    | none => hidReadData tag rest
    | some p =>
      if (p + 1 == buf.length || buf.get? (p + 1) == some 0) &&
          (tag.isNone || buf.head? == tag)
      then some (buf, p)
      else hidReadData tag rest

/-- The frame-acceptance conditions exactly as the specification words
them for one report: the (first-scanned) delimiter position is the last
byte of the buffer or immediately followed by a null byte, and, when a
message-type tag is required, the report's first byte equals that tag. -/
def SpecFrameOk (tag : Option Nat) (buf : List Nat) : Prop :=
  ∃ p, crPos buf = some p ∧
    (p + 1 = buf.length ∨ buf.get? (p + 1) = some 0) ∧
    (∀ t, tag = some t → buf.head? = some t)

/-- The panic message of `unimplemented!("HID interface USB v0.2 only
supports status and rating queries")`. -/
def hidUnsupportedMsg : String :=
  "not implemented: HID interface USB v0.2 only supports status and rating queries"

/-- `<CPlusHidInterface as CPlusInterface>::query_extra_power_info`
(`src/device/cplus.rs:272-274`): the body is `unimplemented!`, which
panics; no value and no `Err` is ever returned. -/
def hidQueryExtraPowerInfo : Outcome ExtraPowerInfoResponse :=
  Outcome.panic hidUnsupportedMsg

/-- `<CPlusHidInterface as CPlusInterface>::query_alarm`
(`src/device/cplus.rs:276-278`): `unimplemented!`. -/
def hidQueryAlarm : Outcome AlarmInquiryResponse :=
  Outcome.panic hidUnsupportedMsg

/-- `<CPlusHidInterface as CPlusInterface>::query_ups_autonomy`
(`src/device/cplus.rs:280-282`): `unimplemented!`. -/
def hidQueryUpsAutonomy : Outcome AutonomyResponse :=
  Outcome.panic hidUnsupportedMsg

/-- `<CPlusHidInterface as CPlusInterface>::query_ups_battery_life`
(`src/device/cplus.rs:284-286`): `unimplemented!`. -/
def hidQueryUpsBatteryLife : Outcome BatteryLifeResponse :=
  Outcome.panic hidUnsupportedMsg

/-- `<CPlusHidInterface as CPlusInterface>::query_ups_info`
(`src/device/cplus.rs:288-290`): `unimplemented!`. -/
def hidQueryUpsInfo : Outcome UPSInformation :=
  Outcome.panic hidUnsupportedMsg

/-! ## Theorems -/

/-- C1: the claim as frozen — "if the transport reports a timeout or I/O
error before the delimiter byte is read, the query surfaces an I/O
(transport) error to the caller, and never returns a decoded message
derived from an empty or partial frame" — is false on the code: at the
concrete transport that delivers the bytes `(`, `1`, `1` and then fails
before any delimiter, the serial alarm query returns a successfully
decoded message built from the partial frame, not an I/O error. -/
theorem c1_counterexample :
    processedQuery AlarmInquiryResponse.from_bytes
      [ReadEvent.byte 40, ReadEvent.byte 49, ReadEvent.byte 49, ReadEvent.err] =
      Except.ok { inverter_on := true, ups_alarm_on := true } := rfl

/-- C1 (amended): a transport timeout or I/O error before the delimiter is
swallowed by the serial read loop, which treats the bytes accumulated so
far as the complete frame: no transport error reaches the caller; an
empty frame yields `InvalidFormat` and a nonempty partial frame, minus
its start byte, is handed to the decoder, whose result — possibly a
successfully decoded message — is returned. -/
theorem c1_partial_frame {α : Type} (f : List Nat → Except Error α)
    (bs : List Nat) (evs : List ReadEvent) (h : END_BYTE ∉ bs) :
    rawQuery (bs.map ReadEvent.byte ++ ReadEvent.err :: evs) = bs ∧
    processedQuery f (bs.map ReadEvent.byte ++ ReadEvent.err :: evs) =
      match bs with
      | [] => Except.error Error.InvalidFormat
      | _ :: rest => f rest := by
  have hraw : rawQuery (bs.map ReadEvent.byte ++ ReadEvent.err :: evs) = bs := by
    induction bs with
    | nil => rfl
    | cons b t ih =>
      have hb : b ≠ END_BYTE := fun hb => h (hb ▸ List.mem_cons_self b t)
      have ht : END_BYTE ∉ t := fun hm => h (List.mem_cons_of_mem b hm)
      simpa [rawQuery, serialReadData, hb] using ih ht
  refine ⟨hraw, ?_⟩
  unfold processedQuery
  rw [hraw]
  cases bs <;> rfl

/-- C1 witness: the amended statement at the transport that fails at once;
the empty frame surfaces as `InvalidFormat` (not as an I/O error). -/
theorem c1_witness :
    processedQuery AlarmInquiryResponse.from_bytes [ReadEvent.err] =
      Except.error Error.InvalidFormat :=
  (c1_partial_frame AlarmInquiryResponse.from_bytes [] [] (by decide)).2

/-- C2: the claim as frozen requires each unsupported HID query to fail
with an error condition *returned* to the caller.  The code's bodies are
`unimplemented!`, which panics: concretely, the HID alarm query's outcome
is a panic, not a returned `Err` value (the constructors of `Outcome` are
disjoint). -/
theorem c2_counterexample :
    hidQueryAlarm = Outcome.panic hidUnsupportedMsg ∧
      (∀ e, hidQueryAlarm ≠ Outcome.err e) ∧ ∀ r, hidQueryAlarm ≠ Outcome.ok r :=
  ⟨rfl, fun _ h => by simp [hidQueryAlarm] at h, fun _ h => by simp [hidQueryAlarm] at h⟩

/-- C2 (amended): on the HID transport every query method other than
status and rating fails loudly by panicking with the distinct
`unimplemented!` message "HID interface USB v0.2 only supports status and
rating queries"; none of the five ever returns data (stale, wrong or
otherwise) or an `Ok` value to the caller. -/
theorem c2_hid_unsupported :
    hidQueryExtraPowerInfo = Outcome.panic hidUnsupportedMsg ∧
    hidQueryAlarm = Outcome.panic hidUnsupportedMsg ∧
    hidQueryUpsAutonomy = Outcome.panic hidUnsupportedMsg ∧
    hidQueryUpsBatteryLife = Outcome.panic hidUnsupportedMsg ∧
    hidQueryUpsInfo = Outcome.panic hidUnsupportedMsg :=
  ⟨rfl, rfl, rfl, rfl, rfl⟩

/-- C3: the device-info decoder panics — in `slice::split_at`, whose
`mid <= len` assertion fails — on every input shorter than the
35 = 15 + 10 + 10 bytes it consumes, instead of returning the
`InvalidFormat` the specification's all-or-nothing invariant requires. -/
theorem c3_short_input_panics (s : List Nat) (h : s.length < 35) :
    UPSInformation.from_bytes s = Outcome.panic ("mid > len") := by
  unfold UPSInformation.from_bytes
  simp only [List.length_drop]
  split_ifs <;> first | rfl | omega

/-- C3 witness: the empty input makes the device-info decoder panic. -/
theorem c3_witness :
    UPSInformation.from_bytes [] = Outcome.panic ("mid > len") :=
  c3_short_input_panics [] (by decide)

/-- C4: the claim as frozen — every input whose length is not exactly 2
yields `InvalidFormat` — is false on the code: the three-byte input
`b"110"` decodes successfully (from its first two bytes), because
`s.get(0..2)` only fails when fewer than two bytes are present. -/
theorem c4_counterexample :
    AlarmInquiryResponse.from_bytes [49, 49, 48] =
      Except.ok { inverter_on := true, ups_alarm_on := true } := rfl

/-- C4 (amended): an input shorter than 2 bytes yields `InvalidFormat`;
every input with at least 2 bytes decodes from its first two bytes, byte
`'1'` (49) mapping to `true` and anything else to `false` — trailing
bytes are ignored, not rejected. -/
theorem c4_alarm_decode :
    (∀ a b t, AlarmInquiryResponse.from_bytes (a :: b :: t) =
        Except.ok { inverter_on := a = 49, ups_alarm_on := b = 49 }) ∧
    AlarmInquiryResponse.from_bytes [] = Except.error Error.InvalidFormat ∧
    ∀ a, AlarmInquiryResponse.from_bytes [a] = Except.error Error.InvalidFormat :=
  ⟨fun _ _ _ => rfl, rfl, fun _ => rfl⟩

/-- C5: the claim as frozen reads the two-byte field `[3,182]` as 938 and
its 0.01-scaled decoding as 9.38.  Big-endian, `[3,182]` is 950: on the
repository's own protocol-PDF test vector the field decodes (as the
battery cut-off voltage) to 9.5, not 9.38. -/
theorem c5_counterexample :
    be16 3 182 = 950 ∧
    ExtraPowerInfoResponse.from_bytes
        [1, 244, 0, 0, 0, 0, 5, 110, 3, 182, 2, 21, 0, 0, 0, 33, 0, 0, 0, 0] =
      Except.ok
        { ups_output_freq := 50, battery_voltage := 13.9, battery_cut_voltage := 9.5,
          ups_wattage := 533, error_code := 0, load_current := 3.3 } ∧
    (9.5 : ℚ) ≠ 9.38 := by
  refine ⟨rfl, ?_, by norm_num⟩
  have h : ExtraPowerInfoResponse.from_bytes
      [1, 244, 0, 0, 0, 0, 5, 110, 3, 182, 2, 21, 0, 0, 0, 33, 0, 0, 0, 0] =
      Except.ok
        { ups_output_freq := (be16 1 244 : ℚ) * 0.1
          battery_voltage := (be16 5 110 : ℚ) * 0.01
          battery_cut_voltage := (be16 3 182 : ℚ) * 0.01
          ups_wattage := be16 2 21
          error_code := be16 0 0
          load_current := (be16 0 33 : ℚ) * 0.1 } := rfl
  rw [h]
  simp only [Except.ok.injEq, ExtraPowerInfoResponse.mk.injEq]
  norm_num [be16]

/-- C5 (amended): on every 20-byte input the declared scale factors are
0.1 for the output frequency and the load current, 0.01 for the battery
voltage and the cut-off voltage, and none for the wattage and the opaque
error code, each field a two-byte big-endian integer; in particular
`[1,244]` (500) scaled by 0.1 decodes to 50.0 and `[3,182]` (950, not
938) scaled by 0.01 decodes to 9.5. -/
theorem c5_scale_factors :
    (∀ b0 b1 b2 b3 b4 b5 b6 b7 b8 b9 b10 b11 b12 b13 b14 b15 b16 b17 b18 b19 : Nat,
      ExtraPowerInfoResponse.from_bytes
          [b0, b1, b2, b3, b4, b5, b6, b7, b8, b9,
           b10, b11, b12, b13, b14, b15, b16, b17, b18, b19] =
        Except.ok
          { ups_output_freq := (be16 b0 b1 : ℚ) * 0.1
            battery_voltage := (be16 b6 b7 : ℚ) * 0.01
            battery_cut_voltage := (be16 b8 b9 : ℚ) * 0.01
            ups_wattage := be16 b10 b11
            error_code := be16 b12 b13
            load_current := (be16 b14 b15 : ℚ) * 0.1 }) ∧
    (be16 1 244 : ℚ) * 0.1 = 50 ∧ (be16 3 182 : ℚ) * 0.01 = 9.5 := by
  refine ⟨?_, by norm_num [be16], by norm_num [be16]⟩
  intros
  rfl

/-- A key absent from an association list's key column is not found by
`List.lookup`. -/
theorem lookup_eq_none_of_not_mem {β : Type} {s : String} {l : List (String × β)}
    (h : s ∉ l.map Prod.fst) : l.lookup s = none := by
  induction l with
  | nil => rfl
  | cons p t ih =>
    obtain ⟨k, v⟩ := p
    have h1 : s ≠ k := fun he => h (by simp [he])
    have h2 : s ∉ t.map Prod.fst := fun hm => h (by simp [hm])
    have h3 : (s == k) = false := beq_eq_false_iff_ne.mpr h1
    simp [List.lookup, h3, ih h2]

/-- C6: the battery-capacity lookup maps the exact literal `"2.05"` in
online mode (`offline = false`) to 62%, `"10"` in offline mode to 0% and
`"13.5"` in offline mode to 100%; and every voltage literal not present
in the table selected by the offline flag yields
`InvalidBatteryCapacityParameter` — exact string match, no nearest-match
approximation. -/
theorem c6_battery_capacity :
    battery_capacity false ("2.05") = Except.ok 62 ∧
    battery_capacity true ("10") = Except.ok 0 ∧
    battery_capacity true ("13.5") = Except.ok 100 ∧
    ∀ (offline : Bool) (s : String), s ∉ (capacityTable offline).map Prod.fst →
      battery_capacity offline s = Except.error Error.InvalidBatteryCapacityParameter := by
  refine ⟨rfl, rfl, rfl, ?_⟩
  intro offline s h
  unfold battery_capacity
  rw [lookup_eq_none_of_not_mem h]

/-- C6 witness: the literal `"9.99"` is in neither table, so the offline
lookup rejects it. -/
theorem c6_witness :
    battery_capacity true ("9.99") = Except.error Error.InvalidBatteryCapacityParameter :=
  c6_battery_capacity.2.2.2 true ("9.99") (by decide)

/-- C7: on every 4-byte input the battery-life decoder yields a duration
exactly 3600 times the autonomy decoder's (hours vs seconds); big-endian
1348 = `[0,0,5,68]` decodes to 1348 s autonomy and 4 852 800 s battery
life; and every input whose length is not 4 makes both decoders fail. -/
theorem c7_autonomy_battery_life :
    (∀ (s : List Nat) (t : Nat), AutonomyResponse.from_bytes s = Except.ok ⟨t⟩ →
        BatteryLifeResponse.from_bytes s = Except.ok ⟨3600 * t⟩) ∧
    (∀ s : List Nat, s.length = 4 → ∃ t,
        AutonomyResponse.from_bytes s = Except.ok ⟨t⟩ ∧
        BatteryLifeResponse.from_bytes s = Except.ok ⟨3600 * t⟩) ∧
    AutonomyResponse.from_bytes [0, 0, 5, 68] = Except.ok ⟨1348⟩ ∧
    BatteryLifeResponse.from_bytes [0, 0, 5, 68] = Except.ok ⟨4852800⟩ ∧
    ∀ s : List Nat, s.length ≠ 4 →
      AutonomyResponse.from_bytes s = Except.error Error.InvalidParameterLength ∧
      BatteryLifeResponse.from_bytes s = Except.error Error.InvalidParameterLength := by
  refine ⟨?_, ?_, rfl, rfl, ?_⟩
  · intro s t h
    rcases s with _ | ⟨a, _ | ⟨b, _ | ⟨c, _ | ⟨d, _ | ⟨e, rest⟩⟩⟩⟩⟩ <;>
      simp [AutonomyResponse.from_bytes, AutonomyResponse.mk.injEq] at h
    subst h
    simp [BatteryLifeResponse.from_bytes, BatteryLifeResponse.mk.injEq]
    ring
  · intro s h
    rcases s with _ | ⟨a, _ | ⟨b, _ | ⟨c, _ | ⟨d, _ | ⟨e, rest⟩⟩⟩⟩⟩ <;> simp at h
    exact ⟨be32 a b c d, rfl,
      by simp [BatteryLifeResponse.from_bytes, BatteryLifeResponse.mk.injEq]; ring⟩
  · intro s h
    rcases s with _ | ⟨a, _ | ⟨b, _ | ⟨c, _ | ⟨d, _ | ⟨e, rest⟩⟩⟩⟩⟩ <;>
      first
        | exact ⟨rfl, rfl⟩
        | exact absurd rfl h

/-- C7 witness: the relational part applied at the concrete 4-byte input
`[0,0,5,68]` and the failure part at the 3-byte input `[1,2,3]`. -/
theorem c7_witness :
    BatteryLifeResponse.from_bytes [0, 0, 5, 68] = Except.ok ⟨3600 * 1348⟩ ∧
    AutonomyResponse.from_bytes [1, 2, 3] = Except.error Error.InvalidParameterLength :=
  ⟨c7_autonomy_battery_life.1 [0, 0, 5, 68] 1348 rfl,
   (c7_autonomy_battery_life.2.2.2.2 [1, 2, 3] (by decide)).1⟩

/-- C10: if a serial query's raw frame is empty, `processed_query`
returns `InvalidFormat` for *every* decoder — i.e. without the decode
outcome depending on, or the decoder being consulted about, the frame;
if the frame is exactly one byte (the start marker alone), the decoder
is invoked on the empty slice and decides the outcome. -/
theorem c10_processed_query {α : Type} (f : List Nat → Except Error α)
    (evs : List ReadEvent) :
    (rawQuery evs = [] → processedQuery f evs = Except.error Error.InvalidFormat) ∧
    ∀ x, rawQuery evs = [x] → processedQuery f evs = f [] := by
  constructor
  · intro h
    simp [processedQuery, h]
  · intro x h
    simp [processedQuery, h]

/-- C10 witness: a transport that fails at once gives an empty frame and
`InvalidFormat`; one that delivers only the start marker `(` and the
delimiter gives a one-byte frame, and the decoder runs on the empty
slice. -/
theorem c10_witness :
    processedQuery ExtraPowerInfoResponse.from_bytes [ReadEvent.err] =
      Except.error Error.InvalidFormat ∧
    processedQuery ExtraPowerInfoResponse.from_bytes
        [ReadEvent.byte 40, ReadEvent.byte 13] =
      ExtraPowerInfoResponse.from_bytes [] :=
  ⟨(c10_processed_query ExtraPowerInfoResponse.from_bytes [ReadEvent.err]).1 rfl,
   (c10_processed_query ExtraPowerInfoResponse.from_bytes
      [ReadEvent.byte 40, ReadEvent.byte 13]).2 40 rfl⟩

/-- The position `crPos` finds holds the delimiter byte. -/
theorem crPos_get {l : List Nat} {p : Nat} (h : crPos l = some p) :
    l.get? p = some END_BYTE := by
  induction l generalizing p with
  | nil => simp [crPos] at h
  | cons b t ih =>
    by_cases hb : b = END_BYTE
    · simp [crPos, hb] at h
      subst h
      simp [hb]
    · simp [crPos, hb] at h
      obtain ⟨q, hq, rfl⟩ := h
      simpa using ih hq

/-- `hidAccept` once the scan position is known. -/
theorem hidAccept_some {tag : Option Nat} {buf : List Nat} {p : Nat}
    (hc : crPos buf = some p) :
    hidAccept tag buf =
      ((p + 1 == buf.length || buf.get? (p + 1) == some 0) &&
        (tag.isNone || buf.head? == tag)) := by
  unfold hidAccept
  rw [hc]

/-- The specification-level acceptance conditions coincide with the
code's boolean test. -/
theorem specFrameOk_iff {tag : Option Nat} {buf : List Nat} :
    SpecFrameOk tag buf ↔ hidAccept tag buf = true := by
  cases hc : crPos buf with
  | none =>
    constructor
    · rintro ⟨q, hq, -, -⟩
      rw [hc] at hq
      cases hq
    · intro hb
      unfold hidAccept at hb
      rw [hc] at hb
      cases hb
  | some p =>
    rw [hidAccept_some hc]
    simp only [Bool.and_eq_true, Bool.or_eq_true, beq_iff_eq,
      Option.isNone_iff_eq_none]
    constructor
    · rintro ⟨q, hq, hcond, htag⟩
      rw [hc] at hq
      injection hq with hq
      subst hq
      refine ⟨hcond, ?_⟩
      cases tag with
      | none => exact Or.inl rfl
      | some t => exact Or.inr (htag t rfl)
    · rintro ⟨hcond, htag⟩
      refine ⟨p, hc, hcond, ?_⟩
      intro t ht
      subst ht
      rcases htag with h | h
      · cases h
      · exact h

/-- One iteration of the polling loop. -/
theorem hidReadData_cons (tag : Option Nat) (buf : List Nat)
    (rest : List (List Nat)) :
    hidReadData tag (buf :: rest) =
      match crPos buf with
      | none => hidReadData tag rest
      | some p =>
        if (p + 1 == buf.length || buf.get? (p + 1) == some 0) &&
            (tag.isNone || buf.head? == tag)
        then some (buf, p)
        else hidReadData tag rest := rfl

/-- The polling loop accepts the head report when it passes the test. -/
theorem hidReadData_cons_accept {tag : Option Nat} {buf : List Nat} {p : Nat}
    (rest : List (List Nat)) (hc : crPos buf = some p)
    (ha : hidAccept tag buf = true) :
    hidReadData tag (buf :: rest) = some (buf, p) := by
  have ha2 : ((p + 1 == buf.length || buf.get? (p + 1) == some 0) &&
      (tag.isNone || buf.head? == tag)) = true := by
    rw [← hidAccept_some hc]
    exact ha
  rw [hidReadData_cons, hc]
  show (if (p + 1 == buf.length || buf.get? (p + 1) == some 0) &&
      (tag.isNone || buf.head? == tag)
    then some (buf, p) else hidReadData tag rest) = some (buf, p)
  rw [if_pos ha2]

/-- The polling loop skips the head report when it fails the test. -/
theorem hidReadData_cons_skip {tag : Option Nat} {buf : List Nat}
    (rest : List (List Nat)) (ha : hidAccept tag buf = false) :
    hidReadData tag (buf :: rest) = hidReadData tag rest := by
  cases hc : crPos buf with
  | none => rw [hidReadData_cons, hc]
  | some p =>
    have ha2 : ((p + 1 == buf.length || buf.get? (p + 1) == some 0) &&
        (tag.isNone || buf.head? == tag)) = false := by
      rw [← hidAccept_some hc]
      exact ha
    rw [hidReadData_cons, hc]
    show (if (p + 1 == buf.length || buf.get? (p + 1) == some 0) &&
        (tag.isNone || buf.head? == tag)
      then some (buf, p) else hidReadData tag rest) = hidReadData tag rest
    rw [if_neg (by intro h; rw [ha2] at h; exact Bool.false_ne_true h)]

/-- C8: soundness — a frame is accepted by the HID polling loop only from
a report whose (first-scanned) delimiter position is the last byte of the
buffer or is immediately followed by a null byte, with the report's first
byte equal to the required message-type tag when one is demanded — and
progress — for any sequence of reports, the reports violating those
conditions are skipped and the first later report satisfying them is the
one accepted. -/
theorem c8_hid_frame_acceptance :
    (∀ (tag : Option Nat) (reports : List (List Nat)) (buf : List Nat) (p : Nat),
        hidReadData tag reports = some (buf, p) →
          buf ∈ reports ∧ buf.get? p = some END_BYTE ∧
          (p + 1 = buf.length ∨ buf.get? (p + 1) = some 0) ∧
          ∀ t, tag = some t → buf.head? = some t) ∧
    ∀ (tag : Option Nat) (pre : List (List Nat)) (buf : List Nat)
        (rest : List (List Nat)),
      (∀ x ∈ pre, ¬ SpecFrameOk tag x) → SpecFrameOk tag buf →
      (hidReadData tag (pre ++ buf :: rest)).map Prod.fst = some buf := by
  constructor
  · intro tag reports
    induction reports with
    | nil =>
      intro buf p h
      simp [hidReadData] at h
    | cons r rs ih =>
      intro buf p h
      by_cases ha : hidAccept tag r = true
      · obtain ⟨q, hq, hcond, htag⟩ := specFrameOk_iff.mpr ha
        rw [hidReadData_cons_accept rs hq ha] at h
        simp only [Option.some.injEq, Prod.mk.injEq] at h
        obtain ⟨rfl, rfl⟩ := h
        exact ⟨List.mem_cons_self _ _, crPos_get hq, hcond, htag⟩
      · rw [Bool.not_eq_true] at ha
        rw [hidReadData_cons_skip rs ha] at h
        obtain ⟨hm, hrest⟩ := ih buf p h
        exact ⟨List.mem_cons_of_mem _ hm, hrest⟩
  · intro tag pre
    induction pre with
    | nil =>
      intro buf rest _ hs
      have ha := specFrameOk_iff.mp hs
      obtain ⟨p, hp, -, -⟩ := hs
      simp [hidReadData_cons_accept rest hp ha]
    | cons x xs ih =>
      intro buf rest hpre hs
      have hx : hidAccept tag x = false := by
        cases hb : hidAccept tag x
        · rfl
        · exact absurd (specFrameOk_iff.mpr hb)
            (hpre x (List.mem_cons_self _ _))
      rw [List.cons_append, hidReadData_cons_skip _ hx]
      exact ih buf rest (fun y hy => hpre y (List.mem_cons_of_mem _ hy)) hs

/-- C8 witness: with the status tag `(` (40) demanded, a first report
holding a mid-carousel fragment (its delimiter followed by further data)
is skipped and the following report holding a complete null-padded
status-tagged frame is the one accepted. -/
theorem c8_witness :
    (hidReadData (some 40) [[40, 13, 65], [40, 49, 13, 0]]).map Prod.fst =
      some [40, 49, 13, 0] := by
  have h := c8_hid_frame_acceptance.2 (some 40) [[40, 13, 65]] [40, 49, 13, 0] []
  refine h ?_ (specFrameOk_iff.mpr (by decide))
  intro x hx
  have hx2 : x = [40, 13, 65] := by simpa using hx
  subst hx2
  intro hs
  exact absurd (specFrameOk_iff.mp hs) (by decide)

/-- Comparing denoted rational values is comparing cross-multiplied
mantissas. -/
theorem decVal_lt_iff {a b : String} :
    decVal a < decVal b ↔
      decMant a * 10 ^ decFrac b < decMant b * 10 ^ decFrac a := by
  unfold decVal
  rw [div_lt_div_iff₀ (by positivity) (by positivity)]
  exact_mod_cast Iff.rfl

/-- The boolean key comparison agrees with the rational order. -/
theorem decValLtB_iff {a b : String} :
    decValLtB a b = true ↔ decVal a < decVal b := by
  rw [decVal_lt_iff]
  simp [decValLtB]

/-- `tblR` is transitive. -/
theorem tblR_trans {a b c : String × Nat} (h1 : tblR a b) (h2 : tblR b c) :
    tblR a c :=
  ⟨h2.1.trans h1.1, h2.2.trans h1.2⟩

/-- A sorted table stays sorted after dropping its head. -/
theorem tableSortedB_cons_1 {x : String × Nat} {t : List (String × Nat)}
    (h : tableSortedB (x :: t) = true) : tableSortedB t = true := by
  cases t with
  | nil => rfl
  | cons y u =>
    have h2 := h
    simp only [tableSortedB, Bool.and_eq_true] at h2
    exact h2.2

/-- The head of a sorted table dominates every later entry. -/
theorem tableSortedB_cons_R {x : String × Nat} {t : List (String × Nat)}
    (h : tableSortedB (x :: t) = true) : ∀ b ∈ t, tblR x b := by
  induction t generalizing x with
  | nil =>
    intro b hb
    cases hb
  | cons y u ih =>
    have h2 := h
    simp only [tableSortedB, Bool.and_eq_true, decide_eq_true_eq] at h2
    have hxy : tblR x y := ⟨decValLtB_iff.mp h2.1.1, h2.1.2⟩
    intro b hb
    rcases List.mem_cons.mp hb with rfl | hb2
    · exact hxy
    · exact tblR_trans hxy (ih (tableSortedB_cons_1 h) b hb2)

/-- Any two entries of a sorted table are equal or ordered by `tblR`. -/
theorem tableSortedB_mem {l : List (String × Nat)} (h : tableSortedB l = true) :
    ∀ a ∈ l, ∀ b ∈ l, a = b ∨ tblR a b ∨ tblR b a := by
  induction l with
  | nil =>
    intro a ha
    cases ha
  | cons x t ih =>
    intro a ha b hb
    rcases List.mem_cons.mp ha with rfl | ha2 <;> rcases List.mem_cons.mp hb with rfl | hb2
    · exact Or.inl rfl
    · exact Or.inr (Or.inl (tableSortedB_cons_R h b hb2))
    · exact Or.inr (Or.inr (tableSortedB_cons_R h a ha2))
    · exact ih (tableSortedB_cons_1 h) a ha2 b hb2

/-- C9: within each battery-capacity table the lookup is monotone — of
any two entries of the same table, the one whose voltage literal denotes
the larger numeric value maps to a greater-or-equal percentage — and the
offline table spans `"13.5" ↦ 100` down to `"10" ↦ 0` while the online
table spans `"2.22" ↦ 100` down to `"1.67" ↦ 0`. -/
theorem c9_capacity_monotone :
    (∀ (offline : Bool), ∀ e1 ∈ capacityTable offline, ∀ e2 ∈ capacityTable offline,
        decVal e2.1 < decVal e1.1 → e2.2 ≤ e1.2) ∧
    offlineTable.head? = some (("13.5"), 100) ∧
    offlineTable.getLast? = some (("10"), 0) ∧
    onlineTable.head? = some (("2.22"), 100) ∧
    onlineTable.getLast? = some (("1.67"), 0) := by
  refine ⟨?_, rfl, rfl, rfl, rfl⟩
  intro offline e1 h1 e2 h2 hlt
  have hs : tableSortedB (capacityTable offline) = true := by
    cases offline
    · decide
    · decide
  rcases tableSortedB_mem hs e1 h1 e2 h2 with rfl | hR | hR
  · exact absurd hlt (lt_irrefl _)
  · exact hR.2
  · exact absurd hR.1 (lt_asymm hlt)

/-- C9 witness: in the offline table, `"13.5"` denotes a larger value
than `"10"`, and the monotone lookup yields `0 ≤ 100` accordingly. -/
theorem c9_witness :
    decVal ("10") < decVal ("13.5") ∧
      ((("10"), 0) : String × Nat).2 ≤ ((("13.5"), 100) : String × Nat).2 := by
  have hlt : decVal ("10") < decVal ("13.5") := decVal_lt_iff.mpr (by decide)
  exact ⟨hlt,
    c9_capacity_monotone.1 true (("13.5"), 100) (by decide) (("10"), 0) (by decide) hlt⟩

end Alphamon
